import Mathlib

/-!
Shallow embedding of the workflow orchestration engine of
`src/ingestion/src/metadata/workflow/base.py` (class `BaseWorkflow`).

Records are opaque tokens (`α`); each element of `BaseWorkflow.steps` is
modelled by its kind tag (mirroring the `isinstance` checks of the Python
code) together with its per-record behaviour `run : record -> record | None`,
and two flags saying whether its bulk `run()` and its `close()` raise.
The `source` is a separate field of the workflow, exactly as in the Python
class, where `steps` is documented as the steps "aside from the source".

The side effects of `_execute_internal`, `execute`, `stop` and `__init__`
are modelled as explicit event traces.
-/

namespace OMWorkflow

/-- States of `PipelineState` used by `base.py` (`running`, `failed`) plus the
terminal states computed at the end of a successful run. -/
inductive PipelineState where
  | running
  | success
  | failed
  | partSuccess
deriving DecidableEq, Repr

/-- Kind tag of a pipeline step, mirroring the classes
`Processor`, `Stage`, `Sink`, `BulkSink` checked by `isinstance` in
`BaseWorkflow._execute_internal`; `other` stands for any `Step` subclass
that is none of these. -/
inductive StepKind where
  | processor
  | stage
  | sink
  | bulkSink
  | other
deriving DecidableEq, Repr

/-- Model of one element of `BaseWorkflow.steps`: its kind, its per-record
`run(record)` behaviour (`none` is the Python `None` skip sentinel), whether
its no-argument bulk `run()` raises, and whether its `close()` raises. -/
structure WStep (α : Type) where
  kind : StepKind
  runRecord : α → Option α
  bulkRaises : Bool
  closeRaises : Bool

/-- Model of `BaseWorkflow.source`: `source.run()` lazily yields `yields`
in order and, when `raisesAfter` is set, raises after the last yield
(a generator failing mid-iteration). -/
structure SourceModel (α : Type) where
  yields : List α
  raisesAfter : Bool

/-- Observable events of a run.  `runStep i r` is `steps[i].run(r)`;
`runBulk i` is the no-argument `steps[i].run()` of a `BulkSink`;
`closeStep i` is `steps[i].close()`; `logCloseWarning i` is the
`logger.warning` emitted when `steps[i].close()` raises; `closeSource`
would be `source.close()` (no method of `base.py` performs it);
`raiseOut` is an exception propagating to the caller. -/
inductive Ev (α : Type) where
  | timerTrigger
  | runStep (i : Nat) (r : α)
  | runBulk (i : Nat)
  | setState (s : PipelineState)
  | updateAtEnd
  | timerStop
  | metadataClose
  | closeStep (i : Nat)
  | logCloseWarning (i : Nat)
  | closeSource
  | raiseOut
deriving DecidableEq

/-- The record-processing kinds: `isinstance(step, (Processor, Stage, Sink))`. -/
def perRecordKind (k : StepKind) : Bool :=
  match k with
  | StepKind.processor => true
  | StepKind.stage => true
  | StepKind.sink => true
  | _ => false

/-- Pair each list element with its position, starting at `k`. -/
def withIdx {β : Type} (k : Nat) : List β → List (Nat × β)
  | [] => []
  | b :: l => (k, b) :: withIdx (k + 1) l

/-- The inner `for step in self.steps` loop of `_execute_internal` for one
record: carries `processed_record : Option α`; a step is invoked only when
the carried record is not `none` and the step's kind is a per-record kind,
and then the carried record becomes the step's result.  Returns the final
carried value and the trace of step invocations. -/
def runChain {α : Type} : List (Nat × WStep α) → Option α → Option α × List (Ev α)
  | [], cur => (cur, [])
  | (i, s) :: rest, cur =>
    match cur with
    | none => runChain rest none
    | some r =>
      if perRecordKind s.kind then
        let out := runChain rest (s.runRecord r)
        (out.1, Ev.runStep i r :: out.2)
      else
        runChain rest (some r)

/-- Events produced by pushing one source record through the full step list. -/
def recordEvents {α : Type} (steps : List (WStep α)) (r : α) : List (Ev α) :=
  (runChain (withIdx 0 steps) (some r)).2

/-- `next((step for step in self.steps if isinstance(step, BulkSink)), None)`:
the first `BulkSink` of the step list, with its position. -/
def firstBulk {α : Type} (k : Nat) : List (WStep α) → Option (Nat × WStep α)
  | [] => none
  | s :: rest =>
    if s.kind = StepKind.bulkSink then some (k, s) else firstBulk (k + 1) rest

/-- `BaseWorkflow._execute_internal`: drain the source, pushing each record
through the step chain; when the source raises, the loop aborts there and
the bulk-sink lookup is never reached; otherwise run the first `BulkSink`
(if any) once with no argument.  Returns the event trace and whether an
exception escaped. -/
def executeInternal {α : Type} (src : SourceModel α) (steps : List (WStep α)) :
    List (Ev α) × Bool :=
  let recEvs := (src.yields.map (recordEvents steps)).flatten
  if src.raisesAfter then
    (recEvs, true)
  else
    match firstBulk 0 steps with
    | none => (recEvs, false)
    | some (i, s) => (recEvs ++ [Ev.runBulk i], s.bulkRaises)

/-- The `try: step.close() except: logger.warning(...)` body of
`BaseWorkflow.stop` for the step at one position: the close is always
invoked, and a raising close only adds a warning log. -/
def closeEvts {α : Type} (p : Nat × WStep α) : List (Ev α) :=
  Ev.closeStep p.1 ::
    (if p.2.closeRaises then [Ev.logCloseWarning p.1] else [])

/-- `BaseWorkflow.stop`: stop the timer, close the metadata client, then
close each element of `steps` in order inside `try/except`, logging (never
raising) an individual close failure.  The source is not an element of
`steps` and is not closed here. -/
def stopEvents {α : Type} (steps : List (WStep α)) : List (Ev α) :=
  [Ev.timerStop, Ev.metadataClose] ++ (withIdx 0 steps).flatMap closeEvts

/-- `BaseWorkflow.execute`: trigger the timer, run `_execute_internal`;
on an escaping exception set `PipelineState.failed` and re-raise, on the
normal path run `update_ingestion_status_at_end` (modelled as the opaque
event `updateAtEnd`; its body lives in `WorkflowStatusMixin`, outside this
development); the `finally` block runs `stop` before the exception (if any)
reaches the caller.  Returns the event trace and whether an exception
propagates to the caller. -/
def executeRun {α : Type} (src : SourceModel α) (steps : List (WStep α)) :
    List (Ev α) × Bool :=
  let out := executeInternal src steps
  (Ev.timerTrigger ::
      (out.1 ++
        (if out.2 then [Ev.setState PipelineState.failed] else [Ev.updateAtEnd]) ++
        stopEvents steps ++
        (if out.2 then [Ev.raiseOut] else [])),
    out.2)

/-- Is this event a no-argument bulk invocation? -/
def isRunBulk {α : Type} : Ev α → Bool
  | Ev.runBulk _ => true
  | _ => false

/-- Is this event `steps[i].close()`? -/
def isCloseStep {α : Type} (i : Nat) : Ev α → Bool
  | Ev.closeStep j => j == i
  | _ => false

/-- Is this event `source.close()`? -/
def isCloseSource {α : Type} : Ev α → Bool
  | Ev.closeSource => true
  | _ => false

/-- Number of `steps[i].close()` invocations in a trace. -/
def countCloseStep {α : Type} (i : Nat) (evs : List (Ev α)) : Nat :=
  (evs.filter (isCloseStep i)).length

/-- Number of `source.close()` invocations in a trace. -/
def countCloseSource {α : Type} (evs : List (Ev α)) : Nat :=
  (evs.filter isCloseSource).length

/-! ### The `timer` property (`BaseWorkflow.timer`) -/

/-- `REPORTS_INTERVAL_SECONDS = 60` of `base.py`. -/
def REPORTS_INTERVAL_SECONDS : Nat := 60

/-- A `RepeatedTimer` instance, identified by a creation index so that
object identity is observable, together with its reporting interval. -/
structure TimerObj where
  id : Nat
  interval : Nat
deriving DecidableEq, Repr

/-- The engine state the `timer` property touches: the `self._timer` field
(`None` at construction) and a counter of `RepeatedTimer` constructions
performed so far, used to mint fresh identities. -/
structure EngState where
  timerField : Option TimerObj
  nextId : Nat
deriving DecidableEq, Repr

/-- The `timer` property: when `self._timer` is unset, construct a
`RepeatedTimer` with interval `REPORTS_INTERVAL_SECONDS` and store it;
return the stored instance. -/
def timerGet (st : EngState) : TimerObj × EngState :=
  match st.timerField with
  | some t => (t, st)
  | none =>
    let t : TimerObj := ⟨st.nextId, REPORTS_INTERVAL_SECONDS⟩
    (t, ⟨some t, st.nextId + 1⟩)

/-- `k` successive reads of the `timer` property, returning the accessed
instances in order and the final engine state. -/
def timerAccesses : Nat → EngState → List TimerObj × EngState
  | 0, st => ([], st)
  | k + 1, st =>
    let out := timerGet st
    let rest := timerAccesses k out.2
    (out.1 :: rest.1, rest.2)

/-! ### Service-connection resolution
(`BaseWorkflow._retrieve_service_connection_if_needed`) and `__init__` -/

/-- Outcome of `metadata.get_by_name(service_class, service_name)`:
a service carrying a stored connection (a `Nat` payload standing for the
opaque connection object), no matching service (`None`), or a raised
exception. -/
inductive LookupResult where
  | found (conn : Nat)
  | notFound
  | raisesExc
deriving DecidableEq, Repr

/-- The fields of `self.config.source` the resolver reads or writes. -/
structure SourceConfig where
  serviceConnection : Option Nat
  serviceName : String
  sourceType : String
deriving DecidableEq, Repr

/-- The metadata catalog client as seen by the resolver: its
`forceEntityOverwriting` flag and its `get_by_name` behaviour per
service name. -/
structure Catalog where
  forceEntityOverwriting : Bool
  getByName : String → LookupResult

/-- The `InvalidWorkflowJSONException` message raised when the catalog has
no matching service, naming the service and the remediation steps. -/
def invalidWorkflowMsg (serviceName : String) : String :=
  "Error getting the service [" ++ serviceName ++
    "] from the API. If it exists in OpenMetadata," ++
    " make sure the ingestion-bot JWT token is valid and that the Workflow is deployed" ++
    " with the latest one. If this error persists, recreate the JWT token and" ++
    " redeploy the Workflow."

/-- Result of one call to `_retrieve_service_connection_if_needed`:
the (possibly mutated) source config, how many times `get_by_name` was
invoked, the `InvalidWorkflowJSONException` message propagated to the
caller (if any), and whether the generic `logger.error` branch ran. -/
structure ResolveResult where
  newConfig : SourceConfig
  lookupCalls : Nat
  raisedError : Option String
  loggedGeneric : Bool
deriving DecidableEq, Repr

/-- `BaseWorkflow._retrieve_service_connection_if_needed`: when the source
config has no `serviceConnection` and `forceEntityOverwriting` is unset,
call `get_by_name`; a truthy service overwrites `serviceConnection` with its
stored connection; a falsy result raises `InvalidWorkflowJSONException`
(re-raised by its dedicated `except` clause); any other exception is
logged by the generic `except Exception` clause and swallowed.  Otherwise
the method does nothing. -/
def retrieveServiceConnectionIfNeeded (cfg : SourceConfig) (cat : Catalog) :
    ResolveResult :=
  if cfg.serviceConnection = none ∧ cat.forceEntityOverwriting = false then
    match cat.getByName cfg.serviceName with
    | LookupResult.found conn =>
      ⟨⟨some conn, cfg.serviceName, cfg.sourceType⟩, 1, none, false⟩
    | LookupResult.notFound =>
      ⟨cfg, 1, some (invalidWorkflowMsg cfg.serviceName), false⟩
    | LookupResult.raisesExc =>
      ⟨cfg, 1, none, true⟩
  else
    ⟨cfg, 0, none, false⟩

/-- Events of `BaseWorkflow.__init__` after the metadata client exists:
`set_ingestion_pipeline_status(PipelineState.running)`, then connection
resolution, then `set_steps()`. -/
inductive InitEvent where
  | setStatusRunning
  | setSteps
deriving DecidableEq, Repr

/-- `BaseWorkflow.__init__` from the status report on: report
`PipelineState.running`, then run `_retrieve_service_connection_if_needed`;
when resolution raises, `__init__` aborts there and `set_steps` is never
reached; otherwise `set_steps` runs.  Returns the init trace and the
propagated exception message, if any. -/
def workflowInit (cfg : SourceConfig) (cat : Catalog) :
    List InitEvent × Option String :=
  let res := retrieveServiceConnectionIfNeeded cfg cat
  match res.raisedError with
  | some e => ([InitEvent.setStatusRunning], some e)
  | none => ([InitEvent.setStatusRunning, InitEvent.setSteps], none)

/-! ### Helper lemmas -/

/-- Once the carried record is the skip sentinel, the rest of the chain
invokes nothing and the sentinel is final. -/
theorem runChain_none {α : Type} (l : List (Nat × WStep α)) :
    runChain l none = ((none : Option α), []) := by
  induction l with
  | nil => rfl
  | cons p rest ih =>
    obtain ⟨i, s⟩ := p
    simpa [runChain] using ih

/-- Membership in `withIdx` determines the position and the element. -/
theorem withIdx_mem {β : Type} (l : List β) (k i : Nat) (b : β)
    (h : (i, b) ∈ withIdx k l) :
    ∃ j, i = k + j ∧ l[j]? = some b := by
  induction l generalizing k with
  | nil => simp [withIdx] at h
  | cons a rest ih =>
    simp only [withIdx, List.mem_cons] at h
    rcases h with h | h
    · obtain ⟨h1, h2⟩ := Prod.mk.injEq .. ▸ h
      exact ⟨0, by simp_all⟩
    · obtain ⟨j, hj, hget⟩ := ih (k + 1) h
      exact ⟨j + 1, by omega, by simpa using hget⟩

/-- Every event emitted by the inner step loop is a `runStep` invocation on
a per-record-kind step listed in the chain. -/
theorem runChain_events {α : Type} (l : List (Nat × WStep α)) (cur : Option α)
    (e : Ev α) (h : e ∈ (runChain l cur).2) :
    ∃ i r s, e = Ev.runStep i r ∧ (i, s) ∈ l ∧ perRecordKind s.kind = true := by
  induction l generalizing cur with
  | nil => simp [runChain] at h
  | cons p rest ih =>
    obtain ⟨i, s⟩ := p
    match cur with
    | none =>
      rw [runChain_none] at h
      simp at h
    | some r =>
      by_cases hk : perRecordKind s.kind
      · simp only [runChain, hk, if_pos, List.mem_cons] at h
        rcases h with h | h
        · exact ⟨i, r, s, h, List.mem_cons_self .., hk⟩
        · obtain ⟨i', r', s', he, hmem, hs'⟩ := ih (s.runRecord r) h
          exact ⟨i', r', s', he, List.mem_cons_of_mem _ hmem, hs'⟩
      · simp only [runChain, hk, if_neg, Bool.false_eq_true, not_false_iff] at h
        obtain ⟨i', r', s', he, hmem, hs'⟩ := ih (some r) h
        exact ⟨i', r', s', he, List.mem_cons_of_mem _ hmem, hs'⟩

/-- Every event of `recordEvents` is a `runStep` on a per-record-kind step
of the step list. -/
theorem recordEvents_shape {α : Type} (steps : List (WStep α)) (r : α)
    (e : Ev α) (h : e ∈ recordEvents steps r) :
    ∃ i q s, e = Ev.runStep i q ∧ steps[i]? = some s ∧
      perRecordKind s.kind = true := by
  obtain ⟨i, q, s, he, hmem, hs⟩ := runChain_events _ _ _ h
  obtain ⟨j, hj, hget⟩ := withIdx_mem steps 0 i s hmem
  exact ⟨i, q, s, he, by simpa [hj] using hget, hs⟩

/-- Every event of `_execute_internal` is a per-record `runStep` on a
Processor/Stage/Sink, or a no-argument `runBulk`. -/
theorem executeInternal_shape {α : Type} (src : SourceModel α)
    (steps : List (WStep α)) (e : Ev α)
    (h : e ∈ (executeInternal src steps).1) :
    (∃ i q s, e = Ev.runStep i q ∧ steps[i]? = some s ∧
      perRecordKind s.kind = true) ∨ (∃ i, e = Ev.runBulk i) := by
  have hrec : ∀ e : Ev α,
      e ∈ (src.yields.map (recordEvents steps)).flatten →
      ∃ i q s, e = Ev.runStep i q ∧ steps[i]? = some s ∧
        perRecordKind s.kind = true := by
    intro e he
    rw [List.mem_flatten] at he
    obtain ⟨evs, hevs, hein⟩ := he
    rw [List.mem_map] at hevs
    obtain ⟨r, _, hr⟩ := hevs
    exact recordEvents_shape steps r e (hr ▸ hein)
  unfold executeInternal at h
  by_cases hra : src.raisesAfter
  · simp only [hra, if_pos] at h
    exact Or.inl (hrec e h)
  · simp only [hra, Bool.false_eq_true, if_neg, not_false_iff] at h
    match hb : firstBulk 0 steps with
    | none =>
      rw [hb] at h
      exact Or.inl (hrec e h)
    | some (i, s) =>
      rw [hb] at h
      simp only [List.mem_append, List.mem_singleton] at h
      rcases h with h | h
      · exact Or.inl (hrec e h)
      · exact Or.inr ⟨i, h⟩

/-- Every event of `closeEvts` is the close of that position or the warning
logged for it. -/
theorem closeEvts_shape {α : Type} (p : Nat × WStep α) (e : Ev α)
    (h : e ∈ closeEvts p) :
    e = Ev.closeStep p.1 ∨ e = Ev.logCloseWarning p.1 := by
  unfold closeEvts at h
  rw [List.mem_cons] at h
  rcases h with h | h
  · exact Or.inl h
  · by_cases hc : p.2.closeRaises <;> simp [hc] at h
    exact Or.inr (by simp [h])

/-- Every event of `stop` is a timer stop, the metadata close, a step close
or a close-failure warning. -/
theorem stopEvents_shape {α : Type} (steps : List (WStep α)) (e : Ev α)
    (h : e ∈ stopEvents steps) :
    e = Ev.timerStop ∨ e = Ev.metadataClose ∨
      (∃ i, e = Ev.closeStep i) ∨ (∃ i, e = Ev.logCloseWarning i) := by
  unfold stopEvents at h
  simp only [List.cons_append, List.nil_append, List.mem_cons] at h
  rcases h with h | h | h
  · exact Or.inl h
  · exact Or.inr (Or.inl h)
  · rw [List.mem_flatMap] at h
    obtain ⟨p, _, hin⟩ := h
    rcases closeEvts_shape p e hin with h | h
    · exact Or.inr (Or.inr (Or.inl ⟨p.1, h⟩))
    · exact Or.inr (Or.inr (Or.inr ⟨p.1, h⟩))

/-- Close-counting distributes over trace concatenation. -/
theorem countCloseStep_append {α : Type} (i : Nat) (a b : List (Ev α)) :
    countCloseStep i (a ++ b) = countCloseStep i a + countCloseStep i b := by
  unfold countCloseStep
  rw [List.filter_append, List.length_append]

/-- The close block of one position contains exactly one close of that
position and none of any other, whether or not its close raises. -/
theorem countCloseStep_closeEvts {α : Type} (p : Nat × WStep α) (i : Nat) :
    countCloseStep i (closeEvts p) = if p.1 = i then 1 else 0 := by
  unfold countCloseStep closeEvts isCloseStep
  by_cases hc : p.2.closeRaises <;> by_cases hp : p.1 = i <;>
    simp [hc, hp, List.filter_cons]

/-- Over the indexed step list starting at `k`, position `i` is closed
exactly once when it is in range and never otherwise. -/
theorem countCloseStep_withIdx {α : Type} (steps : List (WStep α)) (k i : Nat) :
    countCloseStep i ((withIdx k steps).flatMap closeEvts) =
      if k ≤ i ∧ i < k + steps.length then 1 else 0 := by
  induction steps generalizing k with
  | nil =>
    simp only [withIdx, List.flatMap_nil, List.length_nil, Nat.add_zero]
    have : ¬(k ≤ i ∧ i < k) := by omega
    simp [countCloseStep, this]
  | cons s rest ih =>
    rw [withIdx, List.flatMap_cons, countCloseStep_append,
      countCloseStep_closeEvts, ih (k + 1), List.length_cons]
    split_ifs <;> omega

/-- When `firstBulk` finds nothing, no step of the list is a `BulkSink`. -/
theorem firstBulk_none {α : Type} (steps : List (WStep α)) (k : Nat)
    (h : firstBulk k steps = none) :
    ∀ s ∈ steps, s.kind ≠ StepKind.bulkSink := by
  induction steps generalizing k with
  | nil => simp
  | cons a rest ih =>
    unfold firstBulk at h
    by_cases ha : a.kind = StepKind.bulkSink
    · simp [ha] at h
    · intro t ht
      rw [List.mem_cons] at ht
      rcases ht with ht | ht
      · exact ht ▸ ha
      · exact ih (k + 1) (by simpa [ha] using h) t ht

/-- When `firstBulk` returns a step, it is a `BulkSink` sitting at the
returned position, and every earlier step is not a `BulkSink`. -/
theorem firstBulk_some {α : Type} (steps : List (WStep α)) (k i : Nat)
    (s : WStep α) (h : firstBulk k steps = some (i, s)) :
    ∃ j, i = k + j ∧ steps[j]? = some s ∧ s.kind = StepKind.bulkSink ∧
      ∀ m, m < j → ∀ t, steps[m]? = some t → t.kind ≠ StepKind.bulkSink := by
  induction steps generalizing k with
  | nil => simp [firstBulk] at h
  | cons a rest ih =>
    unfold firstBulk at h
    by_cases ha : a.kind = StepKind.bulkSink
    · rw [if_pos ha] at h
      have hik : k = i ∧ a = s := by
        have := Option.some.inj h
        exact ⟨congrArg Prod.fst this, congrArg Prod.snd this⟩
      refine ⟨0, by omega, ?_, hik.2 ▸ ha, by omega⟩
      simp [hik.2]
    · rw [if_neg ha] at h
      obtain ⟨j, hj, hget, hkind, hmin⟩ := ih (k + 1) h
      refine ⟨j + 1, by omega, by simpa using hget, hkind, ?_⟩
      intro m hm t hget'
      match m with
      | 0 =>
        simp only [List.getElem?_cons_zero, Option.some.injEq] at hget'
        exact hget' ▸ ha
      | m + 1 =>
        exact hmin m (by omega) t (by simpa using hget')

/-- A per-record kind is Processor, Stage or Sink. -/
theorem perRecordKind_cases (k : StepKind) (h : perRecordKind k = true) :
    k = StepKind.processor ∨ k = StepKind.stage ∨ k = StepKind.sink := by
  cases k <;> simp [perRecordKind] at h ⊢

/-! ### Claims -/

/-- Claim C1: once a step of the chain returns the skip sentinel (`None`) for a
record, no downstream step's `run` is invoked with that record (the record's
whole trace is the single invocation that produced the sentinel, and a chain
entered with the sentinel invokes nothing); the short-circuit applies to that
record only: the next record from the source is processed from the start of
the full chain, independently of the records before it. -/
theorem claim_C1_skip_short_circuit {α : Type} :
    (∀ (i : Nat) (s : WStep α) (rest : List (Nat × WStep α)) (r : α),
        perRecordKind s.kind = true → s.runRecord r = none →
        runChain ((i, s) :: rest) (some r) = (none, [Ev.runStep i r]))
    ∧ (∀ l : List (Nat × WStep α), runChain l none = ((none : Option α), []))
    ∧ (∀ (steps : List (WStep α)) (ys : List α) (r : α),
        ((ys ++ [r]).map (recordEvents steps)).flatten =
          (ys.map (recordEvents steps)).flatten ++
            (runChain (withIdx 0 steps) (some r)).2) := by
  refine ⟨?_, runChain_none, ?_⟩
  · intro i s rest r hk hr
    simp [runChain, hk, hr, runChain_none]
  · intro steps ys r
    rw [List.map_append, List.flatten_append]
    simp [recordEvents]

/-- Witness for C1: a processor that returns the sentinel on record `5`
short-circuits past a downstream sink. -/
theorem claim_C1_skip_short_circuit_witness :
    runChain
        [(0, (⟨StepKind.processor, fun _ => none, false, false⟩ : WStep Nat)),
          (1, ⟨StepKind.sink, fun r => some r, false, false⟩)]
        (some 5) =
      (none, [Ev.runStep 0 5]) :=
  (@claim_C1_skip_short_circuit Nat).1 0
    ⟨StepKind.processor, fun _ => none, false, false⟩
    [(1, ⟨StepKind.sink, fun r => some r, false, false⟩)] 5 rfl rfl

/-- Claim C9: every record handed to a step by the per-record loop goes to a
Processor, Stage or Sink; a step of any other kind (e.g. a `BulkSink`) never
receives a record, regardless of its position in the step list. -/
theorem claim_C9_records_only_to_record_kinds {α : Type} (src : SourceModel α)
    (steps : List (WStep α)) (i : Nat) (r : α)
    (h : Ev.runStep i r ∈ (executeInternal src steps).1) :
    ∃ s, steps[i]? = some s ∧
      (s.kind = StepKind.processor ∨ s.kind = StepKind.stage ∨
        s.kind = StepKind.sink) := by
  rcases executeInternal_shape src steps _ h with ⟨j, q, s, he, hget, hk⟩ | ⟨j, he⟩
  · injection he with h1 h2
    exact ⟨s, h1 ▸ hget, perRecordKind_cases s.kind hk⟩
  · cases he

/-- Witness for C9: in a run of one record through one processor, the only
record delivery is to that processor. -/
theorem claim_C9_records_only_to_record_kinds_witness :
    ∃ s,
      [(⟨StepKind.processor, fun r => some r, false, false⟩ : WStep Nat)][0]? =
        some s ∧
      (s.kind = StepKind.processor ∨ s.kind = StepKind.stage ∨
        s.kind = StepKind.sink) :=
  claim_C9_records_only_to_record_kinds ⟨[7], false⟩
    [⟨StepKind.processor, fun r => some r, false, false⟩] 0 7 (by decide)

/-- Claim C4: after the source is exhausted without raising, when the step list
has no `BulkSink` the run performs no bulk invocation and no error is raised
for its absence; when it has one, exactly the first `BulkSink` in declaration
order is invoked, once, with no argument, after all record processing. -/
theorem claim_C4_first_bulk_sink {α : Type} (src : SourceModel α)
    (steps : List (WStep α)) (hra : src.raisesAfter = false) :
    (firstBulk 0 steps = none →
      (executeInternal src steps).1 =
          (src.yields.map (recordEvents steps)).flatten ∧
        (executeInternal src steps).1.filter isRunBulk = [] ∧
        (executeInternal src steps).2 = false)
    ∧ (∀ (i : Nat) (s : WStep α), firstBulk 0 steps = some (i, s) →
        (executeInternal src steps).1 =
            (src.yields.map (recordEvents steps)).flatten ++ [Ev.runBulk i] ∧
          (executeInternal src steps).1.filter isRunBulk = [Ev.runBulk i] ∧
          steps[i]? = some s ∧ s.kind = StepKind.bulkSink ∧
          (∀ m, m < i → ∀ t, steps[m]? = some t →
            t.kind ≠ StepKind.bulkSink)) := by
  have hrecs : ((src.yields.map (recordEvents steps)).flatten.filter
      (isRunBulk (α := α))) = [] := by
    rw [List.filter_eq_nil_iff]
    intro e he
    rw [List.mem_flatten] at he
    obtain ⟨evs, hevs, hein⟩ := he
    rw [List.mem_map] at hevs
    obtain ⟨q, _, hq⟩ := hevs
    obtain ⟨i, q', s, he', _, _⟩ := recordEvents_shape steps q e (hq ▸ hein)
    simp [he', isRunBulk]
  constructor
  · intro hb
    have h1 : (executeInternal src steps).1 =
        (src.yields.map (recordEvents steps)).flatten := by
      simp [executeInternal, hra, hb]
    refine ⟨h1, ?_, ?_⟩
    · rw [h1]
      exact hrecs
    · simp [executeInternal, hra, hb]
  · intro i s hb
    have h1 : (executeInternal src steps).1 =
        (src.yields.map (recordEvents steps)).flatten ++ [Ev.runBulk i] := by
      simp [executeInternal, hra, hb]
    obtain ⟨j, hj, hget, hkind, hmin⟩ := firstBulk_some steps 0 i s hb
    have hj0 : i = j := by omega
    subst hj0
    refine ⟨h1, ?_, hget, hkind, fun m hm t => hmin m (by omega) t⟩
    rw [h1, List.filter_append, hrecs, List.nil_append]
    rfl

/-- Witness for C4: with a stage followed by two bulk sinks, only the first
bulk sink (position 1) runs, once, after the record passes the stage. -/
theorem claim_C4_first_bulk_sink_witness :
    (executeInternal (⟨[3], false⟩ : SourceModel Nat)
          [⟨StepKind.stage, fun r => some r, false, false⟩,
            ⟨StepKind.bulkSink, fun r => some r, false, false⟩,
            ⟨StepKind.bulkSink, fun r => some r, false, false⟩]).1.filter
        isRunBulk =
      [Ev.runBulk 1] :=
  ((claim_C4_first_bulk_sink (⟨[3], false⟩ : SourceModel Nat)
        [⟨StepKind.stage, fun r => some r, false, false⟩,
          ⟨StepKind.bulkSink, fun r => some r, false, false⟩,
          ⟨StepKind.bulkSink, fun r => some r, false, false⟩] rfl).2 1
      ⟨StepKind.bulkSink, fun r => some r, false, false⟩ rfl).2.1

/-- Claim C2: when an exception escapes the main execution loop, `execute`
sets `PipelineState.failed`, then the `finally` block runs `stop`, and the
exception reaches the caller only after `stop` completes (the failed-state
event precedes every `stop` event and the re-raise follows them all); on the
no-exception path `execute` never sets `PipelineState.failed` and nothing
propagates to the caller. -/
theorem claim_C2_failed_stop_reraise {α : Type} (src : SourceModel α)
    (steps : List (WStep α)) :
    ((executeInternal src steps).2 = true →
      (executeRun src steps).1 =
        Ev.timerTrigger ::
          ((executeInternal src steps).1 ++
            [Ev.setState PipelineState.failed] ++ stopEvents steps ++
            [Ev.raiseOut]) ∧
      (executeRun src steps).2 = true)
    ∧ ((executeInternal src steps).2 = false →
      Ev.setState PipelineState.failed ∉ (executeRun src steps).1 ∧
      (executeRun src steps).2 = false) := by
  constructor
  · intro h
    constructor
    · simp [executeRun, h]
    · simp [executeRun, h]
  · intro h
    constructor
    · intro hmem
      have htr : (executeRun src steps).1 =
          Ev.timerTrigger ::
            ((executeInternal src steps).1 ++ [Ev.updateAtEnd] ++
              stopEvents steps) := by
        simp [executeRun, h]
      rw [htr, List.mem_cons] at hmem
      rcases hmem with h1 | hmem
      · cases h1
      rw [List.mem_append] at hmem
      rcases hmem with hmem | h1
      · rw [List.mem_append] at hmem
        rcases hmem with h1 | h1
        · rcases executeInternal_shape src steps _ h1 with
            ⟨i, q, s, he, _, _⟩ | ⟨i, he⟩ <;> cases he
        · rw [List.mem_singleton] at h1
          cases h1
      · rcases stopEvents_shape steps _ h1 with
          h2 | h2 | ⟨i, h2⟩ | ⟨i, h2⟩ <;> cases h2
    · simp [executeRun, h]

/-- Witness for C2: a source that raises after yielding three records; all
three are processed, `failed` is set, `stop` runs, and only then the
exception propagates. -/
theorem claim_C2_failed_stop_reraise_witness :
    (executeRun (⟨[1, 2, 3], true⟩ : SourceModel Nat)
          [⟨StepKind.processor, fun r => some (r + 1), false, false⟩]).1 =
        Ev.timerTrigger ::
          ((executeInternal (⟨[1, 2, 3], true⟩ : SourceModel Nat)
                [⟨StepKind.processor, fun r => some (r + 1), false, false⟩]).1 ++
            [Ev.setState PipelineState.failed] ++
            stopEvents [⟨StepKind.processor, fun r => some (r + 1), false, false⟩] ++
            [Ev.raiseOut]) ∧
      (executeRun (⟨[1, 2, 3], true⟩ : SourceModel Nat)
          [⟨StepKind.processor, fun r => some (r + 1), false, false⟩]).2 =
        true :=
  (claim_C2_failed_stop_reraise (⟨[1, 2, 3], true⟩ : SourceModel Nat)
      [⟨StepKind.processor, fun r => some (r + 1), false, false⟩]).1 rfl

/-- Counterexample for C3: `stop` iterates only `self.steps`, which excludes
the source, so for a workflow with a single sink step the source's `close()`
is invoked zero times by `stop`, not exactly once as claimed. -/
theorem claim_C3_counterexample :
    ¬ countCloseSource
        (stopEvents
          [(⟨StepKind.sink, fun r => some r, false, false⟩ : WStep Nat)]) =
      1 := by
  decide

/-- **C3 (amended)**: `stop` invokes `close()` exactly once on every element
of the ordered step list, even when the `close()` of an earlier step raises;
an individual close failure is swallowed and never propagates out of `stop`.
The Source is not an element of the step list and its `close()` is not
invoked by `stop`. -/
theorem claim_C3_amended_close_each_step_once {α : Type}
    (steps : List (WStep α)) (i : Nat) (h : i < steps.length) :
    countCloseStep i (stopEvents steps) = 1 ∧
    Ev.raiseOut ∉ stopEvents steps ∧
    countCloseSource (stopEvents steps) = 0 := by
  refine ⟨?_, ?_, ?_⟩
  · unfold stopEvents
    rw [countCloseStep_append, countCloseStep_withIdx]
    have h2 : countCloseStep (α := α) i [Ev.timerStop, Ev.metadataClose] = 0 := by
      simp [countCloseStep, isCloseStep]
    rw [h2]
    have h3 : 0 ≤ i ∧ i < 0 + steps.length := by omega
    rw [if_pos h3]
  · intro hmem
    rcases stopEvents_shape steps _ hmem with
      h2 | h2 | ⟨j, h2⟩ | ⟨j, h2⟩ <;> cases h2
  · unfold countCloseSource
    rw [List.length_eq_zero, List.filter_eq_nil_iff]
    intro e he
    rcases stopEvents_shape steps _ he with
      h2 | h2 | ⟨j, h2⟩ | ⟨j, h2⟩ <;> simp [h2, isCloseSource]

/-- Witness for C3 (amended): with the first step's `close()` raising, the
second step is still closed exactly once and `stop` raises nothing. -/
theorem claim_C3_amended_close_each_step_once_witness :
    countCloseStep 1
        (stopEvents
          [(⟨StepKind.processor, fun r => some r, false, true⟩ : WStep Nat),
            ⟨StepKind.sink, fun r => some r, false, false⟩]) = 1 ∧
      Ev.raiseOut ∉
        stopEvents
          [(⟨StepKind.processor, fun r => some r, false, true⟩ : WStep Nat),
            ⟨StepKind.sink, fun r => some r, false, false⟩] ∧
      countCloseSource
        (stopEvents
          [(⟨StepKind.processor, fun r => some r, false, true⟩ : WStep Nat),
            ⟨StepKind.sink, fun r => some r, false, false⟩]) = 0 :=
  claim_C3_amended_close_each_step_once
    [⟨StepKind.processor, fun r => some r, false, true⟩,
      ⟨StepKind.sink, fun r => some r, false, false⟩] 1 (by decide)

/-- Reading the `timer` property from a state that already holds an instance
returns that instance unchanged, any number of times. -/
theorem timerAccesses_memo (k : Nat) (t : TimerObj) (m : Nat) :
    timerAccesses k ⟨some t, m⟩ = (List.replicate k t, ⟨some t, m⟩) := by
  induction k with
  | zero => rfl
  | succ k ih => simp [timerAccesses, timerGet, ih, List.replicate_succ]

/-- Claim C10: the `timer` property is lazily memoized: starting from a fresh
engine (`_timer = None`), any positive number of accesses constructs exactly
one `RepeatedTimer` (the construction counter advances by one), with the
fixed 60-second interval, and every access returns that identical
instance. -/
theorem claim_C10_timer_memoized (k n : Nat) (h : 1 ≤ k) :
    (timerAccesses k ⟨none, n⟩).1 =
      List.replicate k ⟨n, REPORTS_INTERVAL_SECONDS⟩ ∧
    (timerAccesses k ⟨none, n⟩).2 =
      ⟨some ⟨n, REPORTS_INTERVAL_SECONDS⟩, n + 1⟩ ∧
    REPORTS_INTERVAL_SECONDS = 60 := by
  cases k with
  | zero => omega
  | succ k =>
    refine ⟨?_, ?_, rfl⟩ <;>
      simp [timerAccesses, timerGet, timerAccesses_memo, List.replicate_succ]

/-- Witness for C10: three accesses on a fresh engine yield the same timer
object three times and exactly one construction. -/
theorem claim_C10_timer_memoized_witness :
    (timerAccesses 3 ⟨none, 0⟩).1 =
        List.replicate 3 ⟨0, REPORTS_INTERVAL_SECONDS⟩ ∧
      (timerAccesses 3 ⟨none, 0⟩).2 =
        ⟨some ⟨0, REPORTS_INTERVAL_SECONDS⟩, 0 + 1⟩ ∧
      REPORTS_INTERVAL_SECONDS = 60 :=
  claim_C10_timer_memoized 3 0 (by decide)

/-- Claim C7: when the source config already has a `serviceConnection`, or the
client's `forceEntityOverwriting` flag is set, connection resolution performs
no catalog lookup (`get_by_name` is invoked zero times) and returns with the
whole configuration unchanged, raising and logging nothing. -/
theorem claim_C7_resolution_noop (cfg : SourceConfig) (cat : Catalog) :
    (cfg.serviceConnection.isSome = true →
      retrieveServiceConnectionIfNeeded cfg cat = ⟨cfg, 0, none, false⟩)
    ∧ (cat.forceEntityOverwriting = true →
      retrieveServiceConnectionIfNeeded cfg cat = ⟨cfg, 0, none, false⟩) := by
  constructor
  · intro h
    unfold retrieveServiceConnectionIfNeeded
    have hc : ¬(cfg.serviceConnection = none ∧
        cat.forceEntityOverwriting = false) := by
      intro hc
      rw [hc.1] at h
      cases h
    rw [if_neg hc]
  · intro h
    unfold retrieveServiceConnectionIfNeeded
    have hc : ¬(cfg.serviceConnection = none ∧
        cat.forceEntityOverwriting = false) := by
      intro hc
      rw [h] at hc
      cases hc.2
    rw [if_neg hc]

/-- Witness for C7: a config with its connection already set is returned
unchanged with zero lookups. -/
theorem claim_C7_resolution_noop_witness :
    retrieveServiceConnectionIfNeeded ⟨some 42, "svc", "mysql"⟩
        ⟨false, fun _ => LookupResult.notFound⟩ =
      ⟨⟨some 42, "svc", "mysql"⟩, 0, none, false⟩ :=
  (claim_C7_resolution_noop ⟨some 42, "svc", "mysql"⟩
      ⟨false, fun _ => LookupResult.notFound⟩).1 rfl

/-- Claim C6: with an empty `serviceConnection`, `forceEntityOverwriting`
unset and a lookup that returns no service, resolution raises the
`InvalidWorkflowJSONException` whose message names the service and the
remediation steps; the exception escapes `__init__` and `set_steps` is never
invoked. -/
theorem claim_C6_missing_service_fatal (cfg : SourceConfig) (cat : Catalog)
    (h1 : cfg.serviceConnection = none)
    (h2 : cat.forceEntityOverwriting = false)
    (h3 : cat.getByName cfg.serviceName = LookupResult.notFound) :
    (retrieveServiceConnectionIfNeeded cfg cat).raisedError =
        some (invalidWorkflowMsg cfg.serviceName) ∧
      (workflowInit cfg cat).2 = some (invalidWorkflowMsg cfg.serviceName) ∧
      InitEvent.setSteps ∉ (workflowInit cfg cat).1 := by
  have hres : retrieveServiceConnectionIfNeeded cfg cat =
      ⟨cfg, 1, some (invalidWorkflowMsg cfg.serviceName), false⟩ := by
    unfold retrieveServiceConnectionIfNeeded
    rw [if_pos ⟨h1, h2⟩, h3]
  refine ⟨by rw [hres], ?_, ?_⟩ <;> simp [workflowInit, hres]

/-- Witness for C6: a missing service makes construction raise before any
step is built. -/
theorem claim_C6_missing_service_fatal_witness :
    (retrieveServiceConnectionIfNeeded ⟨none, "snowflake_prod", "snowflake"⟩
          ⟨false, fun _ => LookupResult.notFound⟩).raisedError =
        some (invalidWorkflowMsg "snowflake_prod") ∧
      (workflowInit ⟨none, "snowflake_prod", "snowflake"⟩
            ⟨false, fun _ => LookupResult.notFound⟩).2 =
        some (invalidWorkflowMsg "snowflake_prod") ∧
      InitEvent.setSteps ∉
        (workflowInit ⟨none, "snowflake_prod", "snowflake"⟩
          ⟨false, fun _ => LookupResult.notFound⟩).1 :=
  claim_C6_missing_service_fatal ⟨none, "snowflake_prod", "snowflake"⟩
    ⟨false, fun _ => LookupResult.notFound⟩ rfl rfl rfl

/-- Counterexample for C5: with an empty connection, the flag unset and a
lookup that raises a generic exception, construction does NOT fail — the
generic `except Exception` clause only logs, so `__init__` propagates no
error and proceeds to `set_steps`. -/
theorem claim_C5_counterexample :
    (workflowInit ⟨none, "mysql_prod", "mysql"⟩
            ⟨false, fun _ => LookupResult.raisesExc⟩).2 = none ∧
      InitEvent.setSteps ∈
        (workflowInit ⟨none, "mysql_prod", "mysql"⟩
          ⟨false, fun _ => LookupResult.raisesExc⟩).1 := by
  decide

/-- **C5 (amended)**: when the lookup itself raises a generic exception, the
failure is logged with the generic error message and swallowed: resolution
returns normally with the configuration unchanged, no exception propagates,
and workflow construction continues to `set_steps` (the workflow starts). -/
theorem claim_C5_amended_generic_lookup_swallowed (cfg : SourceConfig)
    (cat : Catalog) (h1 : cfg.serviceConnection = none)
    (h2 : cat.forceEntityOverwriting = false)
    (h3 : cat.getByName cfg.serviceName = LookupResult.raisesExc) :
    retrieveServiceConnectionIfNeeded cfg cat = ⟨cfg, 1, none, true⟩ ∧
      (workflowInit cfg cat).2 = none ∧
      InitEvent.setSteps ∈ (workflowInit cfg cat).1 := by
  have hres : retrieveServiceConnectionIfNeeded cfg cat =
      ⟨cfg, 1, none, true⟩ := by
    unfold retrieveServiceConnectionIfNeeded
    rw [if_pos ⟨h1, h2⟩, h3]
  refine ⟨hres, ?_, ?_⟩ <;> simp [workflowInit, hres]

/-- Witness for C5 (amended): a raising lookup is logged and swallowed and
the workflow is still constructed. -/
theorem claim_C5_amended_generic_lookup_swallowed_witness :
    retrieveServiceConnectionIfNeeded ⟨none, "pg_prod", "postgres"⟩
          ⟨false, fun _ => LookupResult.raisesExc⟩ =
        ⟨⟨none, "pg_prod", "postgres"⟩, 1, none, true⟩ ∧
      (workflowInit ⟨none, "pg_prod", "postgres"⟩
            ⟨false, fun _ => LookupResult.raisesExc⟩).2 = none ∧
      InitEvent.setSteps ∈
        (workflowInit ⟨none, "pg_prod", "postgres"⟩
          ⟨false, fun _ => LookupResult.raisesExc⟩).1 :=
  claim_C5_amended_generic_lookup_swallowed ⟨none, "pg_prod", "postgres"⟩
    ⟨false, fun _ => LookupResult.raisesExc⟩ rfl rfl rfl

/-- Counterexample for C8: a workflow whose construction fails at connection
resolution has nevertheless already reported a `PipelineState` — the
`running` report of `__init__` precedes connection resolution. -/
theorem claim_C8_counterexample :
    ((workflowInit ⟨none, "redshift_prod", "redshift"⟩
            ⟨false, fun _ => LookupResult.notFound⟩).2).isSome = true ∧
      InitEvent.setStatusRunning ∈
        (workflowInit ⟨none, "redshift_prod", "redshift"⟩
          ⟨false, fun _ => LookupResult.notFound⟩).1 := by
  decide

/-- **C8 (amended)**: `__init__` reports `PipelineState.running` before
connection resolution, so a construction that fails at connection resolution
has already reported `running`; on such a failure `set_steps` is not
invoked and the init trace is exactly the initial `running` report. -/
theorem claim_C8_amended_running_before_resolution (cfg : SourceConfig)
    (cat : Catalog) :
    (workflowInit cfg cat).1.head? = some InitEvent.setStatusRunning ∧
      ((workflowInit cfg cat).2.isSome = true →
        (workflowInit cfg cat).1 = [InitEvent.setStatusRunning] ∧
        InitEvent.setSteps ∉ (workflowInit cfg cat).1) := by
  cases hres : (retrieveServiceConnectionIfNeeded cfg cat).raisedError with
  | none => simp [workflowInit, hres]
  | some e => simp [workflowInit, hres]

/-- Witness for C8 (amended): a construction failing at resolution has the
`running` report as its whole trace. -/
theorem claim_C8_amended_running_before_resolution_witness :
    (workflowInit ⟨none, "kafka_prod", "kafka"⟩
            ⟨false, fun _ => LookupResult.notFound⟩).1.head? =
        some InitEvent.setStatusRunning ∧
      ((workflowInit ⟨none, "kafka_prod", "kafka"⟩
            ⟨false, fun _ => LookupResult.notFound⟩).1 =
          [InitEvent.setStatusRunning] ∧
        InitEvent.setSteps ∉
          (workflowInit ⟨none, "kafka_prod", "kafka"⟩
            ⟨false, fun _ => LookupResult.notFound⟩).1) :=
  ⟨(claim_C8_amended_running_before_resolution ⟨none, "kafka_prod", "kafka"⟩
        ⟨false, fun _ => LookupResult.notFound⟩).1,
    (claim_C8_amended_running_before_resolution ⟨none, "kafka_prod", "kafka"⟩
        ⟨false, fun _ => LookupResult.notFound⟩).2 (by decide)⟩

end OMWorkflow
